import Mathlib

/-!
A verification development for the request-orchestration core of the
better-dev-api repository (NestJS chat backend).  The TypeScript sources are
shallowly embedded as Lean functions: asynchronous calls to external
collaborators (the model provider, the database, the OCR/PDF extractors) are
passed in as explicit result parameters, thrown exceptions become `Except`
values threaded by hand, and the `Map`-backed classification cache becomes an
insertion-ordered association list (mirroring the insertion-order iteration
semantics of a JavaScript `Map`).  Side effects that the specification talks
about (cache lookups, model calls, cache insertions, status writes) are
recorded in explicit effect traces so their absence is provable.
-/

namespace BetterDev

/-- The `String.prototype.includes`: `strHas s pat` is true iff `pat` occurs as a
substring of `s` (for the non-empty literal patterns used by the source:
`"COMPLEX"`, `"YES"`). -/
def strHas (s pat : String) : Bool :=
  (s.splitOn pat).length > 1

/-- The `String.prototype.trim`, implemented over the character list (Lean's own
position-based `String.trim` does not reduce definitionally, which the
concrete witnesses below need). -/
def jsTrim (s : String) : String :=
  String.mk
    (((s.data.dropWhile Char.isWhitespace).reverse.dropWhile
      Char.isWhitespace).reverse)

/-- The `String.prototype.startsWith`, over the character list for the same
reason. -/
def strStarts (s pre : String) : Bool :=
  pre.data.isPrefixOf s.data

/-- Message roles, from `message.entity.ts` (`user` / `assistant` / `system`). -/
inductive Role where
  | user
  | assistant
  | system
deriving DecidableEq, Repr

/-- One typed unit of a multi-modal message, from the `parts` JSONB column and
the UIMessage part objects used throughout the chat module.  The source keeps
parts as loosely typed objects `{type, text?, image?, mimeType?, attachmentId?}`;
the `image` and `url` aliases for image data are collapsed into the single
`image` string field (the claims under verification distinguish image parts
from text parts, never the encoding of the image datum), and tool-call /
tool-result / reasoning parts are collapsed into `other` carrying their tag. -/
inductive Part where
  | text (t : String)
  | image (image : String) (mimeType : Option String)
  | file (attachmentId : String) (t : Option String)
  | other (tag : String)
deriving DecidableEq, Repr

/-- A message in the normalized UI format: a role plus a parts array
(`UIMessage` of the ai SDK as the chat module uses it). -/
structure UIMsg where
  role : Role
  parts : List Part
deriving DecidableEq, Repr

/-- A message as it may arrive from a client: either a parts array, a legacy
flat `content` string, or both absent (`FlexibleMessage` in
`message.utils.ts`). -/
structure FlexMsg where
  role : Role
  content : Option String
  parts : Option (List Part)
deriving DecidableEq, Repr

/-- Returns `true` exactly on `text` parts carrying a string, the filter used by
`MessageUtils.extractText`. -/
def Part.isText : Part → Bool
  | .text _ => true
  | _ => false

/-- The text payload of a part (empty for non-text parts). -/
def Part.textOf : Part → String
  | .text t => t
  | _ => ""

/-- Returns `true` exactly on parts with `type === 'image'`. -/
def Part.isImage : Part → Bool
  | .image _ _ => true
  | _ => false

namespace MessageUtils

/-- The `MessageUtils.extractText` on a parts array: concatenate the `text` fields
of the `text` parts, in order. -/
def extractTextParts (ps : List Part) : String :=
  String.join ((ps.filter Part.isText).map Part.textOf)

/-- The `MessageUtils.extractText` (message.utils.ts, the version shipping
`toAISDKFormat`): prefer the `parts` array, fall back to the legacy `content`
string, else return the empty string. -/
def extractText (m : FlexMsg) : String :=
  match m.parts with
  | some ps => extractTextParts ps
  | none =>
    match m.content with
    | some c => c
    | none => ""

/-- The `extractText` specialized to normalized messages (which always carry
parts). -/
def extractTextUI (m : UIMsg) : String :=
  extractTextParts m.parts

/-- The `MessageUtils.normalize`: keep a non-empty parts array as-is, wrap a legacy
content string into a single text part, and fall back to one empty text
part. -/
def normalize (m : FlexMsg) : UIMsg :=
  match m.parts with
  | some ps =>
    if ps.length > 0 then { role := m.role, parts := ps }
    else
      match m.content with
      | some c => { role := m.role, parts := [Part.text c] }
      | none => { role := m.role, parts := [Part.text ""] }
  | none =>
    match m.content with
    | some c => { role := m.role, parts := [Part.text c] }
    | none => { role := m.role, parts := [Part.text ""] }

/-- Sanitization of one part by `MessageUtils.toAISDKFormat`: text parts keep
their text, image parts are normalized to a provider-usable image datum
(URL strings kept, `data:` URLs kept, bare base64 prefixed with a data-URL
header, leading-slash local paths passed through), file parts become text
parts carrying their injected text, other parts pass through. -/
def sanitizePart (p : Part) : Part :=
  match p with
  | .text t => .text t
  | .image img mt =>
    if strStarts img "http://" || strStarts img "https://" then .image img mt
    else if strStarts img "data:" then .image img mt
    else if ¬ strStarts img "/" then
      .image ("data:" ++ (mt.getD "image/jpeg") ++ ";base64," ++ img) mt
    else .image img mt
  | .file _ t => .text (t.getD "")
  | .other tag => .other tag

/-- The `MessageUtils.toAISDKFormat`: sanitize every part of a message (messages
with an empty parts array are returned unchanged). -/
def toAISDKFormat (m : UIMsg) : UIMsg :=
  if m.parts.length = 0 then m
  else { m with parts := m.parts.map sanitizePart }

/-- The `MessageUtils.toAISDKFormatAll`: map `toAISDKFormat` over a message
list. -/
def toAISDKFormatAll (ms : List UIMsg) : List UIMsg :=
  ms.map toAISDKFormat

end MessageUtils

/-- Operational / effective modes, from `mode.config.ts`.  In TypeScript these
are string literals; at runtime the value `'vision'` also flows through the
`effectiveMode` variable of `ai.service.ts`, so the embedding carries all four
runtime values in one type. -/
inductive Mode where
  | fast
  | thinking
  | auto
  | vision
deriving DecidableEq, Repr

/-- Static per-mode configuration (`ModeConfig` in mode.config.ts).  The float
temperature is carried in tenths (0.5 → 5) to stay in exact arithmetic; the
long system-prompt strings are abbreviated to their first line, which no claim
inspects. -/
structure ModeConfig where
  model : String
  maxTokens : Nat
  temperatureTenths : Nat
  systemPrompt : String
deriving DecidableEq, Repr

/-- The `MODE_CONFIG` from mode.config.ts: a record with exactly the keys `fast`
and `thinking`.  Indexing a TypeScript record with any other key yields
`undefined`, embedded here as `none`. -/
def MODE_CONFIG : Mode → Option ModeConfig
  | .fast => some { model := "llama-3.1-8b-instant", maxTokens := 500,
                    temperatureTenths := 5,
                    systemPrompt := "You are operating in FAST MODE." }
  | .thinking => some { model := "llama-3.3-70b-versatile", maxTokens := 4000,
                        temperatureTenths := 7,
                        systemPrompt := "You are operating in THINKING MODE." }
  | .auto => none
  | .vision => none

namespace ClassificationCacheService

/-- One cache entry: the cached decision plus its absolute expiry instant
(milliseconds), from `interface CacheEntry` in
classification-cache.service.ts. -/
structure CacheEntry where
  mode : Mode
  expiresAt : Nat
deriving DecidableEq, Repr

/-- The cache state: a JavaScript `Map` keyed by strings, embedded as an
insertion-ordered association list (a `Map` iterates and reports its first key
in insertion order; setting an existing key updates it in place). -/
structure Cache where
  entries : List (String × CacheEntry)
deriving DecidableEq, Repr

/-- The `TTL_MS = 5 * 60 * 1000` (5 minutes). -/
def TTL_MS : Nat := 5 * 60 * 1000

/-- The `MAX_CACHE_SIZE = 1000`. -/
def MAX_CACHE_SIZE : Nat := 1000

/-- The `Map.prototype.set` semantics on the association-list model: overwrite the
existing binding in place, else append at the end (newest insertion last). -/
def mapSet (l : List (String × CacheEntry)) (k : String) (v : CacheEntry) :
    List (String × CacheEntry) :=
  if l.any (fun p => p.1 = k) then
    l.map (fun p => if p.1 = k then (k, v) else p)
  else l ++ [(k, v)]

/-- The `Map.prototype.delete` semantics: drop every binding of the key (there is
at most one in a well-formed map). -/
def mapDelete (l : List (String × CacheEntry)) (k : String) :
    List (String × CacheEntry) :=
  l.filter (fun p => p.1 ≠ k)

/-- The `getCacheKey`: the key is a deterministic hash of the trimmed text of the
latest user message, or the sentinel `"empty"` when no user message exists.
The md5 hex digest is abstracted into the `hash` parameter — no claim under
verification depends on the digest function itself, only on its determinism. -/
def getCacheKey (hash : String → String) (msgs : List UIMsg) : String :=
  match (msgs.filter (fun m => m.role = Role.user)).getLast? with
  | none => "empty"
  | some m => hash (jsTrim (MessageUtils.extractTextUI m))

/-- The pure read semantics of `get` at instant `now`: the cached mode if the
entry exists and `¬ (now > expiresAt)`, else `none`.  This is what a caller
can observe through the cache interface. -/
def getPure (c : Cache) (k : String) (now : Nat) : Option Mode :=
  match (c.entries.find? (fun p => p.1 = k)).map Prod.snd with
  | none => none
  | some e => if now > e.expiresAt then none else some e.mode

/-- The `get` as implemented: on an expired entry it also deletes the entry
(lazy expiry on read), so it returns both the result and the new state. -/
def get (c : Cache) (k : String) (now : Nat) : Option Mode × Cache :=
  match (c.entries.find? (fun p => p.1 = k)).map Prod.snd with
  | none => (none, c)
  | some e =>
    if now > e.expiresAt then (none, { entries := mapDelete c.entries k })
    else (some e.mode, c)

/-- The `set`: when the map already holds `MAX_CACHE_SIZE` or more entries, first
delete the first (oldest-inserted) key reported by the map iterator, then
insert the new entry with expiry `now + TTL_MS`. -/
def set (c : Cache) (k : String) (mode : Mode) (now : Nat) : Cache :=
  let afterEvict :=
    if c.entries.length ≥ MAX_CACHE_SIZE then
      match c.entries.head? with
      | some firstEntry => mapDelete c.entries firstEntry.1
      | none => c.entries
    else c.entries
  { entries := mapSet afterEvict k { mode := mode, expiresAt := now + TTL_MS } }

/-- A cache operation as issued by concurrent turns: a `get` or a `set`, each
at some instant. -/
inductive CacheOp where
  | opGet (k : String) (now : Nat)
  | opSet (k : String) (mode : Mode) (now : Nat)

/-- Apply one operation to the cache state. -/
def applyOp (c : Cache) : CacheOp → Cache
  | .opGet k now => (get c k now).2
  | .opSet k mode now => set c k mode now

/-- Run a sequence of operations from the empty cache (the state at service
construction). -/
def runOps (ops : List CacheOp) : Cache :=
  ops.foldl applyOp { entries := [] }

end ClassificationCacheService


namespace AutoClassifierService

/-- The `SHORT_QUERY_THRESHOLD = 15` characters. -/
def SHORT_QUERY_THRESHOLD : Nat := 15

/-- The `CLASSIFICATION_TIMEOUT_MS = 5000`. -/
def CLASSIFICATION_TIMEOUT_MS : Nat := 5000

/-- Observable side effects of one `classify` call, recorded so that their
absence is provable: a cache lookup, the AI model call, a cache insertion. -/
inductive Effect where
  | cacheGet (key : String)
  | modelCall
  | cacheSet (key : String)
deriving DecidableEq, Repr

/-- The outcome of `classify`: the returned mode, the cache state it leaves
behind, and the trace of effects it performed. -/
structure ClassifyResult where
  mode : Mode
  cache : ClassificationCacheService.Cache
  effects : List Effect
deriving Repr

/-- The `AutoClassifierService.classify` (auto-classifier.service.ts).  The
awaited `generateResponse` call bounded by `classifyWithTimeout` is the
`modelReply` parameter: `.ok r` is a response arriving in time, `.error ()`
is a timeout rejection or any other call failure — both are handled by the
same `catch`, which returns `'fast'` without reaching the `cache.set`
line. -/
def classify (hash : String → String) (msgs : List UIMsg)
    (cache : ClassificationCacheService.Cache) (now : Nat)
    (modelReply : Except Unit String) : ClassifyResult :=
  match (msgs.filter (fun m => m.role = Role.user)).getLast? with
  | none => { mode := .fast, cache := cache, effects := [] }
  | some lastMessage =>
    let query := MessageUtils.extractTextUI lastMessage
    if (jsTrim query).length < SHORT_QUERY_THRESHOLD then
      { mode := .fast, cache := cache, effects := [] }
    else
      let cacheKey := ClassificationCacheService.getCacheKey hash msgs
      match ClassificationCacheService.get cache cacheKey now with
      | (some cachedMode, cache1) =>
        { mode := cachedMode, cache := cache1, effects := [.cacheGet cacheKey] }
      | (none, cache1) =>
        match modelReply with
        | .error _ =>
          { mode := .fast, cache := cache1,
            effects := [.cacheGet cacheKey, .modelCall] }
        | .ok response =>
          let isComplex := strHas (jsTrim response).toUpper "COMPLEX"
          let result := if isComplex then Mode.thinking else Mode.fast
          { mode := result,
            cache := ClassificationCacheService.set cache1 cacheKey result now,
            effects := [.cacheGet cacheKey, .modelCall, .cacheSet cacheKey] }

end AutoClassifierService

namespace ModeResolverService

/-- The `['fast', 'thinking', 'auto'].includes(modeOverride)` — the validation
guard of `resolveMode` (mode-resolver.service.ts, the two-argument
resolver used by the chat service). -/
def validOverride : Mode → Bool
  | .fast => true
  | .thinking => true
  | .auto => true
  | .vision => false

/-- The `ModeResolverService.resolveMode`: coerce an invalid override to `auto`
with a warning, take the override or default `auto` as the requested mode, and
resolve `auto` through the classifier.  Returns `(requested, effective)`
together with the cache state and the classifier effect trace. -/
def resolveMode (hash : String → String) (msgs : List UIMsg)
    (cache : ClassificationCacheService.Cache) (now : Nat)
    (modelReply : Except Unit String) (modeOverride : Option Mode) :
    (Mode × Mode) × ClassificationCacheService.Cache ×
      List AutoClassifierService.Effect :=
  let coerced : Option Mode :=
    match modeOverride with
    | some m => if validOverride m then some m else some Mode.auto
    | none => none
  let requestedMode := coerced.getD Mode.auto
  match requestedMode with
  | .fast => ((.fast, .fast), cache, [])
  | .thinking => ((.thinking, .thinking), cache, [])
  | .auto =>
    let r := AutoClassifierService.classify hash msgs cache now modelReply
    ((.auto, r.mode), r.cache, r.effects)
  | .vision =>
    -- the unreachable fallback branch of resolveEffectiveMode
    ((.vision, .fast), cache, [])

end ModeResolverService

/-- A message after the AI SDK collaborator's `convertToModelMessages`: the
flat ModelMessage shape with a `content` array that the converter is known to
strip image data from. -/
structure MMsg where
  role : Role
  content : List Part
deriving DecidableEq, Repr

namespace AIService

/-- The `hasImageContent` (ai.service.ts): true iff any message carries an image
part. -/
def hasImageContent (msgs : List UIMsg) : Bool :=
  msgs.any (fun m => m.parts.any Part.isImage)

/-- The `MAX_IMAGES = 5` — the counter bound of the image-limiting block of
`streamResponseWithMode` (its comment says images are kept "only for the last
3 user messages"). -/
def MAX_IMAGES : Nat := 5

/-- Rewrite the image parts of one older message to the text placeholder, as
in `msg.parts.map(p => p.type === 'image' ? { type: 'text', text:
'[Previous Image Omitted]' } : p)`. -/
def omitImageParts (ps : List Part) : List Part :=
  ps.map (fun p => if p.isImage then Part.text "[Previous Image Omitted]" else p)

/-- The image-limiting walk over the reversed message list
(`[...messagesWithSystem].reverse().map(...)`): `found` counts the
image-carrying user messages seen so far (most recent first); once the counter
exceeds `MAX_IMAGES`, image parts are rewritten to placeholders. -/
def limitImagesRev (found : Nat) : List UIMsg → List UIMsg
  | [] => []
  | m :: rest =>
    if m.role = Role.user ∧ m.parts.any Part.isImage then
      let found1 := found + 1
      (if found1 ≤ MAX_IMAGES then m
       else { m with parts := omitImageParts m.parts }) ::
        limitImagesRev found1 rest
    else m :: limitImagesRev found rest

/-- The full image-limiting step: reverse, walk with the counter, reverse back
to the original order. -/
def limitImages (msgs : List UIMsg) : List UIMsg :=
  (limitImagesRev 0 msgs.reverse).reverse

/-- Content reconstruction for one user message whose pre-conversion original
carried an image: image parts keep their image datum, text parts keep their
text, any other part passes through unchanged (the map in
`streamResponseWithMode`, ai.service.ts lines 224-229). -/
def reconstructContent (ps : List Part) : List Part :=
  ps.map (fun p =>
    match p with
    | .image img _ => .image img none
    | .text t => .text t
    | p1 => p1)

/-- The restoration walk over the converter output: non-user messages pass
through; each user message consumes the next entry of the pre-conversion
user-message list (`originalUserMsgs[userIdx++]`), and gets its content
rebuilt exactly when that original carried an image part. -/
def restoreUserWalk : List UIMsg → List MMsg → List MMsg
  | _, [] => []
  | origs, m :: rest =>
    if m.role ≠ Role.user then m :: restoreUserWalk origs rest
    else
      match origs with
      | [] => m :: restoreUserWalk [] rest
      | o :: os =>
        (if o.parts.any Part.isImage then
          { m with content := reconstructContent o.parts }
         else m) :: restoreUserWalk os rest

/-- The image-restoration fix after `convertToModelMessages`: walk the
converted list against the user messages of the pre-conversion formatted
list. -/
def restoreImages (formatted : List UIMsg) (modelMsgs : List MMsg) : List MMsg :=
  restoreUserWalk (formatted.filter (fun m => m.role = Role.user)) modelMsgs

/-- The streaming configuration handed to `streamText`. -/
structure StreamConfig where
  model : String
  messages : List MMsg
  temperatureTenths : Nat
  maxTokens : Nat
deriving DecidableEq, Repr

/-- The value returned by `streamResponseWithMode`: the stream settings plus
the model and effective mode reported back to the chat service for
metadata. -/
structure StreamOutcome where
  config : StreamConfig
  modelUsed : String
  effectiveMode : Mode
deriving DecidableEq, Repr

/-- The `AIService.streamResponseWithMode` (ai.service.ts).  The external
`convertToModelMessages` collaborator is the `convert` parameter.  When images
are present the effective mode is forced to `vision`; `MODE_CONFIG` has no
`vision` entry, so the `modeConfig.model` read throws a TypeError that the
surrounding catch rethrows as an InternalServerErrorException — embedded as
the `.error` branch. -/
def streamResponseWithMode (convert : List UIMsg → List MMsg)
    (messages : List UIMsg) (initialMode : Mode)
    (userSystemPrompt : Option String) : Except String StreamOutcome :=
  let hasImages := hasImageContent messages
  let effectiveMode := if hasImages then Mode.vision else initialMode
  match MODE_CONFIG effectiveMode with
  | none =>
    .error "AI streaming with mode error: Cannot read properties of undefined (reading model)"
  | some modeConfig =>
    let finalSystemPrompt :=
      match userSystemPrompt with
      | some u =>
        modeConfig.systemPrompt ++
          "\n\n---\nADDITIONAL CONTEXT (User-Defined Domain Expertise):\n" ++
          u ++
          "\n\n---\nIMPORTANT: The operational mode instructions above take precedence."
      | none => modeConfig.systemPrompt
    let messagesWithSystem : List UIMsg :=
      { role := Role.system, parts := [Part.text finalSystemPrompt] } :: messages
    let formattedMessages :=
      MessageUtils.toAISDKFormatAll (limitImages messagesWithSystem)
    let modelMessages := restoreImages formattedMessages (convert formattedMessages)
    .ok { config := { model := modeConfig.model,
                      messages := modelMessages,
                      temperatureTenths := modeConfig.temperatureTenths,
                      maxTokens := modeConfig.maxTokens },
          modelUsed := modeConfig.model,
          effectiveMode := effectiveMode }

/-- The `AIService.analyzeQueryIntent`: no user message → `false`; otherwise ask
the text model (the `reply` oracle) and look for `YES` in the uppercased
response; any call failure is caught and yields `false`. -/
def analyzeQueryIntent (msgs : List UIMsg) (reply : Except Unit String) : Bool :=
  match (msgs.filter (fun m => m.role = Role.user)).getLast? with
  | none => false
  | some _ =>
    match reply with
    | .error _ => false
    | .ok response => strHas (jsTrim response).toUpper "YES"

end AIService

/-- The `FileType` from attachment.entity.ts. -/
inductive FileType where
  | image
  | pdf
  | document
  | video
  | audio
deriving DecidableEq, Repr

/-- The `ExtractionStatus` from attachment.entity.ts. -/
inductive ExtractionStatus where
  | pending
  | processing
  | success
  | failed
deriving DecidableEq, Repr

namespace FileProcessorService

/-- The extraction metadata JSON, restricted to the shapes the processor
actually writes: OCR confidence (in hundredths of a percent), PDF page info,
mammoth messages, nothing, or an `{ error }` note. -/
inductive ExtractMeta where
  | empty
  | ocrMeta (confidence : Nat)
  | pdfMeta (pages : Nat)
  | docMeta
  | errorMeta (message : String)
deriving DecidableEq, Repr

/-- The `ProcessedFile` (file-processor.service.ts): extracted text, metadata, and
whether a thumbnail buffer was produced. -/
structure ProcessedFile where
  extractedText : String
  metadata : ExtractMeta
  thumbnailBuffer : Bool
deriving DecidableEq, Repr

/-- Results of the external extraction collaborators for one job: the sharp
thumbnail pipeline, the Tesseract OCR call (text and confidence), the
pdf-parse call (text and page count), the mammoth call, plus the word-ish
mime-type test of `processDocument`.  An `.error` constructor is the
collaborator throwing. -/
structure ExtractorOracle where
  thumbResult : Except String Unit
  ocrResult : Except String (String × Nat)
  pdfResult : Except String (String × Nat)
  mammothResult : Except String String
  mimeIsWordLike : Bool

/-- The `processImage`: the sharp thumbnail step runs outside any inner catch, so
its failure propagates; the OCR step has its own catch and degrades to empty
text with an error note while the thumbnail is kept. -/
def processImage (thumbResult : Except String Unit)
    (ocrResult : Except String (String × Nat)) : Except String ProcessedFile :=
  match thumbResult with
  | .error e => .error e
  | .ok _ =>
    match ocrResult with
    | .ok (text, confidence) =>
      .ok { extractedText := text, metadata := .ocrMeta confidence,
            thumbnailBuffer := true }
    | .error e =>
      .ok { extractedText := "", metadata := .errorMeta e,
            thumbnailBuffer := true }

/-- The `processPDF`: on a pdf-parse exception it logs and rethrows. -/
def processPDF (pdfResult : Except String (String × Nat)) :
    Except String ProcessedFile :=
  match pdfResult with
  | .ok (text, pages) =>
    .ok { extractedText := text, metadata := .pdfMeta pages,
          thumbnailBuffer := false }
  | .error e => .error e

/-- The `processDocument`: word-like mime types go through mammoth (whose
exception propagates), anything else immediately yields empty text. -/
def processDocument (mimeIsWordLike : Bool)
    (mammothResult : Except String String) : Except String ProcessedFile :=
  if mimeIsWordLike then
    match mammothResult with
    | .ok text =>
      .ok { extractedText := text, metadata := .docMeta,
            thumbnailBuffer := false }
    | .error e => .error e
  else
    .ok { extractedText := "", metadata := .empty, thumbnailBuffer := false }

/-- The `FileProcessorService.process`: dispatch on the file type, and catch ANY
exception from the dispatched extractor, degrading to empty text with the
error message recorded in metadata.  `process` itself therefore never
fails. -/
def process (fileType : FileType) (o : ExtractorOracle) : ProcessedFile :=
  let attempt : Except String ProcessedFile :=
    match fileType with
    | .image => processImage o.thumbResult o.ocrResult
    | .pdf => processPDF o.pdfResult
    | .document => processDocument o.mimeIsWordLike o.mammothResult
    | _ => .ok { extractedText := "", metadata := .empty, thumbnailBuffer := false }
  match attempt with
  | .ok r => r
  | .error e =>
    { extractedText := "", metadata := .errorMeta e, thumbnailBuffer := false }

end FileProcessorService

namespace AttachmentService

/-- Results of the persistence/storage steps that `processFileAsync` itself
awaits and that can reject: the status update to PROCESSING, the thumbnail
storage upload, and the final row update. -/
structure DbOracle where
  updateProcessing : Except String Unit
  thumbnailStore : Except String Unit
  updateFinal : Except String Unit

/-- The `AttachmentService.processFileAsync` (attachment.service.ts), observed
through the sequence of `extractionStatus` values written to the attachment
row.  The trace starts with the PENDING status the row is created with in
`upload`; the `catch` block writes FAILED whenever any awaited step throws.
The second component is the processed file stored by the final update on the
success path. -/
def processFileAsyncTrace (fileType : FileType)
    (o : FileProcessorService.ExtractorOracle) (db : DbOracle) :
    List ExtractionStatus × Option FileProcessorService.ProcessedFile :=
  match db.updateProcessing with
  | .error _ => ([.pending, .failed], none)
  | .ok _ =>
    let processed := FileProcessorService.process fileType o
    let thumbStep : Except String Unit :=
      if processed.thumbnailBuffer then db.thumbnailStore else .ok ()
    match thumbStep with
    | .error _ => ([.pending, .processing, .failed], none)
    | .ok _ =>
      match db.updateFinal with
      | .error _ => ([.pending, .processing, .failed], none)
      | .ok _ => ([.pending, .processing, .success], some processed)

end AttachmentService

/-- The Conversation entity (conversation.entity.ts), restricted to the
fields the orchestration core reads. -/
structure Conversation where
  id : String
  userId : String
  systemPrompt : Option String
  operationalMode : Option Mode
deriving DecidableEq, Repr

/-- A persisted Message row (message.entity.ts): flattened content plus the
parts array.  Rows appear in the store in persistence (`createdAt`)
order. -/
structure DbMessage where
  conversationId : String
  role : Role
  content : String
  parts : List Part
deriving DecidableEq, Repr

/-- A persisted Attachment row, restricted to the fields `getUIMessages`
reads for context enrichment. -/
structure DbAttachment where
  id : String
  conversationId : String
  fileName : String
  extractionStatus : ExtractionStatus
  extractedText : Option String
deriving DecidableEq, Repr

/-- The persistent store visible to the chat service: conversations, messages
in persistence order, and attachments. -/
structure Store where
  conversations : List Conversation
  messages : List DbMessage
  attachments : List DbAttachment
deriving DecidableEq, Repr

/-- Nest HTTP exceptions thrown by the chat service, with the wrapping cause
chain of `InternalServerErrorException(msg, { cause })`. -/
inductive HttpError where
  | notFound (message : String)
  | forbidden (message : String)
  | internal (message : String) (cause : Option HttpError)
deriving Repr

/-- The HTTP status each exception class is surfaced with. -/
def HttpError.statusCode : HttpError → Nat
  | .notFound _ => 404
  | .forbidden _ => 403
  | .internal _ _ => 500

/-- The `error.message` of the exception. -/
def HttpError.messageOf : HttpError → String
  | .notFound m => m
  | .forbidden m => m
  | .internal m _ => m

namespace ChatService

/-- The `maxDocumentTokens * charsPerToken` with the defaults of
token-limits.config.ts: 32000 × 4. -/
def maxDocChars : Nat := 32000 * 4

/-- The `verifyOwnership` (the lightweight variant used by
`handleStreamingResponse`): 404 when the conversation does not exist, 403
when the caller does not own it. -/
def verifyOwnership (store : Store) (conversationId userId : String) :
    Except HttpError Conversation :=
  match store.conversations.find? (fun c => c.id = conversationId) with
  | none => .error (.notFound "Conversation not found")
  | some conversation =>
    if conversation.userId ≠ userId then .error (.forbidden "Access denied")
    else .ok conversation

/-- Context enrichment of one `file` part in `getUIMessages`: a SUCCESS
attachment inlines its extracted text (truncated to the per-document
character budget with a visible marker), a PROCESSING attachment inlines the
still-reading placeholder, anything else leaves the part untouched. -/
def enrichPart (attachments : List DbAttachment) (p : Part) : Part :=
  match p with
  | .file attachmentId _ =>
    match attachments.find? (fun a => a.id = attachmentId) with
    | some a =>
      if a.extractionStatus = ExtractionStatus.success then
        let text := a.extractedText.getD ""
        let truncatedText :=
          if text.length > maxDocChars then
            (text.take maxDocChars) ++ "... [Text Truncated at 32000 tokens.]"
          else text
        .file attachmentId
          (some ("\n\n[File Content: " ++ a.fileName ++ "]:\n" ++ truncatedText))
      else if a.extractionStatus = ExtractionStatus.processing then
        .file attachmentId
          (some ("\n\n[System: I am currently reading the file \"" ++
                 a.fileName ++ "\". Please wait a moment.]"))
      else p
    | none => p
  | _ => p

/-- The `getUIMessages`: the conversation's messages in order, file parts
enriched from the batched attachment lookup, a synthetic system message
prepended when the conversation has a system prompt, and legacy rows
normalized to a single text part. -/
def getUIMessages (store : Store) (conversationId : String) : List UIMsg :=
  let msgs := store.messages.filter (fun m => m.conversationId = conversationId)
  let convAttachments :=
    store.attachments.filter (fun a => a.conversationId = conversationId)
  let sysMsgs : List UIMsg :=
    match store.conversations.find? (fun c => c.id = conversationId) with
    | some c =>
      match c.systemPrompt with
      | some sp => [{ role := Role.system, parts := [Part.text sp] }]
      | none => []
    | none => []
  sysMsgs ++ msgs.map (fun m =>
    if m.parts.length > 0 then
      { role := m.role, parts := m.parts.map (enrichPart convAttachments) }
    else { role := m.role, parts := [Part.text m.content] })

/-- The `saveUIMessage`: append a Message row whose flattened content is the
extracted text of the message.  (The back-linking update that stamps this
row's id onto referenced attachment rows is elided: no claim under
verification observes `attachment.messageId`.) -/
def saveUIMessage (store : Store) (conversationId : String) (m : UIMsg) :
    Store :=
  { store with
    messages := store.messages ++
      [{ conversationId := conversationId, role := m.role,
         content := MessageUtils.extractTextUI m, parts := m.parts }] }

/-- The `resolveImageParts` on one part: an image part whose datum is a local
`/uploads/` path is read from storage (the `readFile` oracle, returning the
base64 content) and replaced by an inline data URL; a read failure is caught
and degrades to the original part. -/
def resolveImagePart (readFile : String → Option String) (p : Part) : Part :=
  match p with
  | .image img mimeType =>
    if strStarts img "/uploads/" then
      match readFile (img.drop "/uploads/".length) with
      | some base64 =>
        .image ("data:" ++ (mimeType.getD "image/jpeg") ++ ";base64," ++ base64)
          mimeType
      | none => p
    else p
  | _ => p

/-- The `resolveImageParts` over the history. -/
def resolveImageParts (readFile : String → Option String)
    (msgs : List UIMsg) : List UIMsg :=
  msgs.map (fun m => { m with parts := m.parts.map (resolveImagePart readFile) })

/-- The generation metadata recorded with the assistant turn
(`baseMetadata` in handleStreamingResponse). -/
structure TurnMetadata where
  operationalMode : Mode
  effectiveMode : Mode
  modelUsed : String
  temperatureTenths : Nat
deriving DecidableEq, Repr

/-- What a successful `handleStreamingResponse` hands back: the dispatched
stream outcome and the metadata that will be persisted with the assistant
message. -/
structure TurnResult where
  outcome : AIService.StreamOutcome
  metadata : TurnMetadata
deriving DecidableEq, Repr

/-- The catch-all at the bottom of `handleStreamingResponse`: every error
thrown inside the try block is rethrown as
`InternalServerErrorException('Chat streaming failed: ' + error.message,
{ cause: error })`. -/
def wrapTurnError (e : HttpError) : HttpError :=
  .internal ("Chat streaming failed: " ++ e.messageOf) (some e)

/-- The tail of `handleStreamingResponse`: dispatch of the streaming call and
construction of the generation metadata from the outcome.  A thrown error is
wrapped by the surrounding catch; reading `.temperature` off the missing
`MODE_CONFIG` entry for a hypothetical non-fast/thinking outcome throws a
TypeError, wrapped the same way. -/
def dispatchStream (streamed : Except String AIService.StreamOutcome)
    (requested : Mode) (store1 : Store)
    (cache1 : ClassificationCacheService.Cache) :
    Except HttpError TurnResult × Store × ClassificationCacheService.Cache :=
  match streamed with
  | .error msg =>
    (.error (wrapTurnError (.internal msg none)), store1, cache1)
  | .ok outcome =>
    match MODE_CONFIG outcome.effectiveMode with
    | none =>
      (.error (wrapTurnError
        (.internal "Cannot read properties of undefined (reading temperature)" none)),
       store1, cache1)
    | some finalModeConfig =>
      (.ok { outcome := outcome,
             metadata := { operationalMode := requested,
                           effectiveMode := outcome.effectiveMode,
                           modelUsed := outcome.modelUsed,
                           temperatureTenths := finalModeConfig.temperatureTenths } },
       store1, cache1)

/-- The `ChatService.handleStreamingResponse` (the current chat service), from
ownership verification through the dispatch of the streaming call.  External
collaborators appear as parameters: `hash` (md5), `convert`
(`convertToModelMessages`), `readFile` (storage), `classifierReply` and
`intentReply` (the two `generateResponse` calls), `now` (the clock).  The
returned triple is the surfaced result, the store after the user-turn
persistence, and the classification cache after mode resolution; the
assistant-turn persistence runs in the stream `onFinish` callback, outside
this function. -/
def handleStreamingResponse (hash : String → String)
    (convert : List UIMsg → List MMsg) (readFile : String → Option String)
    (store : Store) (cache : ClassificationCacheService.Cache)
    (conversationId userId : String) (messages : List FlexMsg)
    (modeOverride : Option Mode) (now : Nat)
    (classifierReply intentReply : Except Unit String) :
    Except HttpError TurnResult × Store × ClassificationCacheService.Cache :=
  match verifyOwnership store conversationId userId with
  | .error e => (.error (wrapTurnError e), store, cache)
  | .ok conversation =>
    match messages.getLast? with
    | none =>
      (.error (wrapTurnError (.internal "No user message provided" none)),
       store, cache)
    | some inputMessage =>
      let lastUserMessage := MessageUtils.normalize inputMessage
      let lastUserMessageText := MessageUtils.extractTextUI lastUserMessage
      let lastDbMessage :=
        (store.messages.filter (fun m =>
          m.conversationId = conversationId ∧ m.role = Role.user)).getLast?
      let isDuplicate : Bool :=
        match lastDbMessage with
        | some m => m.content == lastUserMessageText
        | none => false
      let store1 :=
        if isDuplicate then store
        else saveUIMessage store conversationId lastUserMessage
      let historyMessages := getUIMessages store1 conversationId
      let resolved :=
        ModeResolverService.resolveMode hash historyMessages cache now
          classifierReply modeOverride
      let requested := resolved.1.1
      let effective := resolved.1.2
      let cache1 := resolved.2.1
      let _needsTools := AIService.analyzeQueryIntent historyMessages intentReply
      let resolvedHistory := resolveImageParts readFile historyMessages
      dispatchStream
        (AIService.streamResponseWithMode convert resolvedHistory effective
          conversation.systemPrompt)
        requested store1 cache1

end ChatService

/-! Specification helpers and concrete example inputs used by the theorems
and their witnesses below. -/

/-- The restoration walk of `AIService.restoreUserWalk` restricted to the
user messages: pair the converter-output user messages positionally with the
pre-conversion user messages, rebuilding content exactly when the original
carried an image. -/
def zipRestore : List UIMsg → List MMsg → List MMsg
  | _, [] => []
  | [], m :: rest => m :: zipRestore [] rest
  | o :: os, m :: rest =>
    (if o.parts.any Part.isImage then
      { m with content := AIService.reconstructContent o.parts }
     else m) :: zipRestore os rest

/-- A cache entry used by the capacity examples. -/
def entry0 : ClassificationCacheService.CacheEntry :=
  { mode := Mode.fast, expiresAt := 0 }

/-- A full cache: one distinguished oldest entry followed by 999 more
bindings. -/
def fullCacheEntries : List (String × ClassificationCacheService.CacheEntry) :=
  ("oldest", entry0) :: List.replicate 999 ("newer", entry0)

/-- A user message with one image part, for the image-window example. -/
def imgUserMsg (s : String) : UIMsg :=
  { role := Role.user, parts := [Part.image s none] }

/-- Six distinct user messages each carrying one image part — the
image-window scenario of the specification (oldest first). -/
def sixImageMsgs : List UIMsg :=
  [imgUserMsg "image-1", imgUserMsg "image-2", imgUserMsg "image-3",
   imgUserMsg "image-4", imgUserMsg "image-5", imgUserMsg "image-6"]

/-- An extraction oracle whose pdf-parse collaborator throws. -/
def oPdfBoom : FileProcessorService.ExtractorOracle :=
  { thumbResult := .ok (), ocrResult := .ok ("", 0),
    pdfResult := .error "PDF parse failure", mammothResult := .ok "",
    mimeIsWordLike := true }

/-- A database oracle whose persistence steps all succeed. -/
def dbAllOk : AttachmentService.DbOracle :=
  { updateProcessing := .ok (), thumbnailStore := .ok (), updateFinal := .ok () }

/-- A pre-conversion formatted list: a system message and one user message
carrying an image plus a caption, for the restoration witness. -/
def fmtExample : List UIMsg :=
  [{ role := Role.system, parts := [Part.text "s"] },
   { role := Role.user,
     parts := [Part.image "DATA" (some "image/png"), Part.text "caption"] }]

/-- A converter output for `fmtExample` in which the image datum was
stripped and an extra assistant entry was inserted. -/
def mmExample : List MMsg :=
  [{ role := Role.system, content := [Part.text "s"] },
   { role := Role.assistant, content := [Part.text "extra"] },
   { role := Role.user, content := [Part.text "caption"] }]

/-- A message list containing an image part, for the vision-mode example. -/
def msgsWithImage : List UIMsg :=
  [{ role := Role.user,
     parts := [Part.image "data:image/png;base64,AAA" none] }]

/-- A store holding one conversation owned by alice with one persisted user
message saying hi. -/
def store0 : Store :=
  { conversations :=
      [{ id := "conv1", userId := "alice", systemPrompt := none,
         operationalMode := none }],
    messages :=
      [{ conversationId := "conv1", role := Role.user, content := "hi",
         parts := [Part.text "hi"] }],
    attachments := [] }

/-- An incoming client message resending the text hi. -/
def flexHi : FlexMsg :=
  { role := Role.user, content := none, parts := some [Part.text "hi"] }

/-! Theorems.  Each claim Cn of the specification gets one theorem, preceded
by supporting lemmas where needed. -/

namespace ClassificationCacheService

theorem mapSet_length_le (l : List (String × CacheEntry)) (k : String)
    (v : CacheEntry) : (mapSet l k v).length ≤ l.length + 1 := by
  unfold mapSet
  by_cases h : l.any (fun p => p.1 = k)
  · simp only [h, if_true, List.length_map]
    exact Nat.le_succ _
  · simp [h]

theorem mapDelete_length_le (l : List (String × CacheEntry)) (k : String) :
    (mapDelete l k).length ≤ l.length :=
  List.length_filter_le _ _

theorem mapDelete_cons_self (e : String × CacheEntry)
    (t : List (String × CacheEntry)) :
    mapDelete (e :: t) e.1 = mapDelete t e.1 := by
  unfold mapDelete
  rw [List.filter_cons]
  simp

theorem mapDelete_eq_self (t : List (String × CacheEntry)) (k : String)
    (h : k ∉ t.map Prod.fst) : mapDelete t k = t := by
  unfold mapDelete
  refine List.filter_eq_self.mpr ?_
  intro p hp
  have hne : p.1 ≠ k := by
    intro hpk
    exact h (hpk ▸ List.mem_map_of_mem Prod.fst hp)
  simpa using hne

theorem set_length_le (c : Cache) (k : String) (mode : Mode) (now : Nat)
    (h : c.entries.length ≤ MAX_CACHE_SIZE) :
    (set c k mode now).entries.length ≤ MAX_CACHE_SIZE := by
  unfold set
  by_cases hge : c.entries.length ≥ MAX_CACHE_SIZE
  · cases hc : c.entries with
    | nil =>
      rw [hc] at hge
      simp [MAX_CACHE_SIZE] at hge
    | cons e t =>
      rw [hc] at hge h
      simp only [hc, hge, if_true, List.head?]
      calc (mapSet (mapDelete (e :: t) e.1) k
              { mode := mode, expiresAt := now + TTL_MS }).length
          ≤ (mapDelete (e :: t) e.1).length + 1 := mapSet_length_le _ _ _
        _ ≤ (mapDelete t e.1).length + 1 := by rw [mapDelete_cons_self]
        _ ≤ t.length + 1 := Nat.succ_le_succ (mapDelete_length_le _ _)
        _ = (e :: t).length := by simp
        _ ≤ MAX_CACHE_SIZE := h
  · have hlt : c.entries.length < MAX_CACHE_SIZE := Nat.lt_of_not_le hge
    simp only [hge, if_false]
    calc (mapSet c.entries k { mode := mode, expiresAt := now + TTL_MS }).length
        ≤ c.entries.length + 1 := mapSet_length_le _ _ _
      _ ≤ MAX_CACHE_SIZE := hlt

theorem get_snd_length_le (c : Cache) (k : String) (now : Nat) :
    ((get c k now).2).entries.length ≤ c.entries.length := by
  unfold get
  cases h : (c.entries.find? (fun p => p.1 = k)).map Prod.snd with
  | none => simp
  | some e =>
    simp only
    split
    · exact mapDelete_length_le _ _
    · simp

theorem runOps_length_le (ops : List CacheOp) :
    (runOps ops).entries.length ≤ MAX_CACHE_SIZE := by
  have h : ∀ (l : List CacheOp) (c : Cache),
      c.entries.length ≤ MAX_CACHE_SIZE →
      (l.foldl applyOp c).entries.length ≤ MAX_CACHE_SIZE := by
    intro l
    induction l with
    | nil => intro c hc; simpa using hc
    | cons op rest ih =>
      intro c hc
      rw [List.foldl_cons]
      apply ih
      cases op with
      | opGet k now => exact le_trans (get_snd_length_le c k now) hc
      | opSet k mode now => exact set_length_le c k mode now hc
  exact h ops { entries := [] } (by simp [MAX_CACHE_SIZE])

end ClassificationCacheService

/-- C5: for every sequence of get/set operations the ClassificationCache
holds at most `MAX_CACHE_SIZE = 1000` entries (in particular at the moment
any `set` call returns), and a `set` issued at (or beyond) capacity first
evicts exactly the single oldest-inserted entry — the head of the
insertion-ordered map — before inserting the new one (FIFO). -/
theorem c5_cache_capacity_and_fifo :
    (∀ ops : List ClassificationCacheService.CacheOp,
      (ClassificationCacheService.runOps ops).entries.length ≤
        ClassificationCacheService.MAX_CACHE_SIZE) ∧
    (∀ (e : String × ClassificationCacheService.CacheEntry)
       (t : List (String × ClassificationCacheService.CacheEntry))
       (k : String) (mode : Mode) (now : Nat),
      (e :: t).length ≥ ClassificationCacheService.MAX_CACHE_SIZE →
      e.1 ∉ t.map Prod.fst →
      ClassificationCacheService.set { entries := e :: t } k mode now =
        { entries := ClassificationCacheService.mapSet t k
            { mode := mode, expiresAt := now + ClassificationCacheService.TTL_MS } }) := by
  constructor
  · exact ClassificationCacheService.runOps_length_le
  · intro e t k mode now hlen hnotin
    unfold ClassificationCacheService.set
    simp only [hlen, if_true, List.head?]
    rw [ClassificationCacheService.mapDelete_cons_self,
        ClassificationCacheService.mapDelete_eq_self t e.1 hnotin]

/-- Witness for C5: a concrete `set` on a 1000-entry cache evicts the oldest
binding and inserts the new one. -/
theorem c5_cache_capacity_and_fifo_witness :
    ClassificationCacheService.set { entries := fullCacheEntries } "new"
        Mode.thinking 7 =
      { entries := ClassificationCacheService.mapSet
          (List.replicate 999 ("newer", entry0)) "new"
          { mode := Mode.thinking,
            expiresAt := 7 + ClassificationCacheService.TTL_MS } } := by
  exact c5_cache_capacity_and_fifo.2 ("oldest", entry0)
    (List.replicate 999 ("newer", entry0)) "new" Mode.thinking 7
    (by rw [List.length_cons, List.length_replicate]
        exact Nat.le_refl 1000)
    (by rw [List.map_replicate]
        intro hmem
        rw [List.mem_replicate] at hmem
        exact absurd hmem.2 (by decide))

namespace ClassificationCacheService

theorem mapDelete_find?_self (l : List (String × CacheEntry)) (k : String) :
    (mapDelete l k).find? (fun p => p.1 = k) = none := by
  induction l with
  | nil => rfl
  | cons p t ih =>
    unfold mapDelete at ih ⊢
    by_cases hp : p.1 = k
    · simp [List.filter_cons, hp, ih]
    · simp [List.filter_cons, hp, List.find?_cons, ih]

theorem mapDelete_find?_ne (l : List (String × CacheEntry)) (k k2 : String)
    (h : k2 ≠ k) :
    (mapDelete l k).find? (fun p => p.1 = k2) =
      l.find? (fun p => p.1 = k2) := by
  induction l with
  | nil => rfl
  | cons p t ih =>
    unfold mapDelete at ih ⊢
    by_cases hp : p.1 = k
    · have hp2 : ¬ p.1 = k2 := by
        rw [hp]
        exact fun hh => h hh.symm
      simpa [List.filter_cons, hp, List.find?_cons, hp2, Ne.symm h] using ih
    · by_cases hp2 : p.1 = k2
      · simp [List.filter_cons, hp, List.find?_cons, hp2, h]
      · simpa [List.filter_cons, hp, List.find?_cons, hp2] using ih

theorem get_snd_getPure (c : Cache) (k : String) (now : Nat) (k2 : String)
    (t : Nat) (ht : now ≤ t) :
    getPure (get c k now).2 k2 t = getPure c k2 t := by
  unfold get
  cases hf : (c.entries.find? (fun p => p.1 = k)).map Prod.snd with
  | none => rfl
  | some e =>
    simp only
    by_cases hexp : now > e.expiresAt
    · simp only [hexp, if_true]
      by_cases hk : k2 = k
      · subst hk
        unfold getPure
        rw [mapDelete_find?_self, hf]
        have hte : t > e.expiresAt := lt_of_lt_of_le hexp ht
        simp [hte]
      · unfold getPure
        rw [show ({ entries := mapDelete c.entries k } : Cache).entries =
              mapDelete c.entries k from rfl,
            mapDelete_find?_ne c.entries k k2 hk]
    · simp [hexp]

end ClassificationCacheService

/-- C7: for every history whose latest user message has trimmed text shorter
than 15 characters, `classify` returns `fast` with the cache untouched and an
empty effect trace — no cache lookup and no model call. -/
theorem c7_short_query_fast_no_lookup_no_call (hash : String → String)
    (msgs : List UIMsg) (cache : ClassificationCacheService.Cache) (now : Nat)
    (reply : Except Unit String) (lastm : UIMsg)
    (hm : (msgs.filter (fun m => m.role = Role.user)).getLast? = some lastm)
    (hlen : (jsTrim (MessageUtils.extractTextUI lastm)).length <
      AutoClassifierService.SHORT_QUERY_THRESHOLD) :
    AutoClassifierService.classify hash msgs cache now reply =
      { mode := Mode.fast, cache := cache, effects := [] } := by
  unfold AutoClassifierService.classify
  rw [hm]
  simp [hlen]

/-- Witness for C7: the two-character query hi is classified fast with no
effects. -/
theorem c7_short_query_fast_no_lookup_no_call_witness :
    AutoClassifierService.classify (fun s => s)
      [{ role := Role.user, parts := [Part.text "hi"] }]
      { entries := [] } 0 (Except.ok "COMPLEX") =
      { mode := Mode.fast, cache := { entries := [] }, effects := [] } :=
  c7_short_query_fast_no_lookup_no_call (fun s => s) _ _ 0 _ _ rfl (by decide)

/-- C8: when the classification model call fails (timeout rejection or any
other error), `classify` returns `fast` without raising; its effect trace
shows the cache lookup and the model call but no cache insertion, and the
cache it leaves behind is observationally unchanged: every later `get`
returns exactly what it would have returned on the pre-call cache (the only
possible state change is the lazy eviction of an already-expired entry during
the miss lookup). -/
theorem c8_model_failure_fast_no_insert (hash : String → String)
    (msgs : List UIMsg) (cache : ClassificationCacheService.Cache) (now : Nat)
    (lastm : UIMsg)
    (hm : (msgs.filter (fun m => m.role = Role.user)).getLast? = some lastm)
    (hlen : ¬ (jsTrim (MessageUtils.extractTextUI lastm)).length <
      AutoClassifierService.SHORT_QUERY_THRESHOLD)
    (hmiss : (ClassificationCacheService.get cache
      (ClassificationCacheService.getCacheKey hash msgs) now).1 = none) :
    (AutoClassifierService.classify hash msgs cache now (.error ())).mode =
      Mode.fast ∧
    (AutoClassifierService.classify hash msgs cache now (.error ())).effects =
      [AutoClassifierService.Effect.cacheGet
        (ClassificationCacheService.getCacheKey hash msgs),
       AutoClassifierService.Effect.modelCall] ∧
    (∀ (k : String) (t : Nat), now ≤ t →
      ClassificationCacheService.getPure
        (AutoClassifierService.classify hash msgs cache now (.error ())).cache
        k t =
      ClassificationCacheService.getPure cache k t) := by
  cases hgp : ClassificationCacheService.get cache
      (ClassificationCacheService.getCacheKey hash msgs) now with
  | mk r1 c2 =>
    rw [hgp] at hmiss
    simp only at hmiss
    subst hmiss
    have hred : AutoClassifierService.classify hash msgs cache now (.error ()) =
        { mode := Mode.fast, cache := c2,
          effects := [AutoClassifierService.Effect.cacheGet
            (ClassificationCacheService.getCacheKey hash msgs),
            AutoClassifierService.Effect.modelCall] } := by
      unfold AutoClassifierService.classify
      rw [hm]
      simp only [if_neg hlen, hgp]
    refine ⟨by rw [hred], by rw [hred], ?_⟩
    intro k t ht
    rw [hred]
    have h2 := ClassificationCacheService.get_snd_getPure cache
      (ClassificationCacheService.getCacheKey hash msgs) now k t ht
    rw [hgp] at h2
    exact h2

/-- Witness for C8: a 31-character query on an empty cache with a failing
model call yields fast, the lookup-then-call trace, and an observably
unchanged cache. -/
theorem c8_model_failure_fast_no_insert_witness :
    (AutoClassifierService.classify (fun s => s)
      [{ role := Role.user, parts := [Part.text "please explain the architecture"] }]
      { entries := [] } 0 (.error ())).mode = Mode.fast ∧
    (AutoClassifierService.classify (fun s => s)
      [{ role := Role.user, parts := [Part.text "please explain the architecture"] }]
      { entries := [] } 0 (.error ())).effects =
      [AutoClassifierService.Effect.cacheGet
        (ClassificationCacheService.getCacheKey (fun s => s)
          [{ role := Role.user, parts := [Part.text "please explain the architecture"] }]),
       AutoClassifierService.Effect.modelCall] ∧
    ClassificationCacheService.getPure
      (AutoClassifierService.classify (fun s => s)
        [{ role := Role.user, parts := [Part.text "please explain the architecture"] }]
        { entries := [] } 0 (.error ())).cache "x" 5 =
    ClassificationCacheService.getPure { entries := [] } "x" 5 := by
  have h := c8_model_failure_fast_no_insert (fun s => s)
    [{ role := Role.user, parts := [Part.text "please explain the architecture"] }]
    { entries := [] } 0
    { role := Role.user, parts := [Part.text "please explain the architecture"] }
    rfl (by decide) (by decide)
  exact ⟨h.1, h.2.1, h.2.2 "x" 5 (by decide)⟩

/-- C6: for every attachment job, whatever the extractor and persistence
outcomes, the sequence of extraction-status values written over the
attachment's lifetime is a subsequence of
PENDING → PROCESSING → SUCCESS or of PENDING → PROCESSING → FAILED, and a
terminal status (SUCCESS or FAILED) only ever appears as the final value —
once terminal, the status never changes again. -/
theorem c6_status_lifecycle_monotone (ft : FileType)
    (o : FileProcessorService.ExtractorOracle)
    (db : AttachmentService.DbOracle) :
    ((AttachmentService.processFileAsyncTrace ft o db).1.Sublist
        [ExtractionStatus.pending, ExtractionStatus.processing,
         ExtractionStatus.success] ∨
      (AttachmentService.processFileAsyncTrace ft o db).1.Sublist
        [ExtractionStatus.pending, ExtractionStatus.processing,
         ExtractionStatus.failed]) ∧
    (∀ s ∈ (AttachmentService.processFileAsyncTrace ft o db).1.dropLast,
      s ≠ ExtractionStatus.success ∧ s ≠ ExtractionStatus.failed) := by
  unfold AttachmentService.processFileAsyncTrace
  cases h1 : db.updateProcessing with
  | error e =>
    exact ⟨Or.inr (of_decide_eq_true rfl), of_decide_eq_true rfl⟩
  | ok u =>
    simp only
    cases hb : (FileProcessorService.process ft o).thumbnailBuffer with
    | true =>
      simp only [hb, if_true]
      cases h2 : db.thumbnailStore with
      | error e2 =>
        exact ⟨Or.inr (of_decide_eq_true rfl), of_decide_eq_true rfl⟩
      | ok u2 =>
        cases h3 : db.updateFinal with
        | error e3 =>
          exact ⟨Or.inr (of_decide_eq_true rfl), of_decide_eq_true rfl⟩
        | ok u3 =>
          exact ⟨Or.inl (of_decide_eq_true rfl), of_decide_eq_true rfl⟩
    | false =>
      simp only [hb, Bool.false_eq_true, if_false]
      cases h3 : db.updateFinal with
      | error e3 =>
        exact ⟨Or.inr (of_decide_eq_true rfl), of_decide_eq_true rfl⟩
      | ok u3 =>
        exact ⟨Or.inl (of_decide_eq_true rfl), of_decide_eq_true rfl⟩

/-- C2 counterexample: a PDF attachment whose pdf-parse extractor throws ends
with extraction status SUCCESS, not FAILED — `FileProcessorService.process`
absorbs the exception, so the claimed FAILED outcome is not reached. -/
theorem c2_counterexample :
    (AttachmentService.processFileAsyncTrace FileType.pdf oPdfBoom
        dbAllOk).1.getLast? = some ExtractionStatus.success ∧
    (AttachmentService.processFileAsyncTrace FileType.pdf oPdfBoom
        dbAllOk).1.getLast? ≠ some ExtractionStatus.failed := by
  exact ⟨by decide, by decide⟩

/-- C2 as amended: when the PDF or Word-document extractor raises,
`FileProcessorService.process` catches the exception and returns empty
extracted text with the error message recorded in metadata, so — provided
`processFileAsync`'s own persistence steps succeed — the attachment is marked
SUCCESS, not FAILED. -/
theorem c2_amended_extractor_error_marked_success (ft : FileType) (e : String)
    (o : FileProcessorService.ExtractorOracle) (db : AttachmentService.DbOracle)
    (hdb1 : db.updateProcessing = .ok ())
    (hdb2 : db.updateFinal = .ok ())
    (hext : (ft = FileType.pdf ∧ o.pdfResult = .error e) ∨
      (ft = FileType.document ∧ o.mimeIsWordLike = true ∧
        o.mammothResult = .error e)) :
    AttachmentService.processFileAsyncTrace ft o db =
      ([ExtractionStatus.pending, ExtractionStatus.processing,
        ExtractionStatus.success],
       some { extractedText := "", metadata := .errorMeta e,
              thumbnailBuffer := false }) := by
  have hproc : FileProcessorService.process ft o =
      { extractedText := "", metadata := .errorMeta e,
        thumbnailBuffer := false } := by
    rcases hext with ⟨hft, hpdf⟩ | ⟨hft, hw, hmam⟩
    · subst hft
      unfold FileProcessorService.process FileProcessorService.processPDF
      rw [hpdf]
    · subst hft
      unfold FileProcessorService.process FileProcessorService.processDocument
      simp only [hw, if_true]
      rw [hmam]
  simp [AttachmentService.processFileAsyncTrace, hdb1, hdb2, hproc]

/-- Witness for the amended C2: the concrete throwing-PDF job ends in
SUCCESS with empty text and the error note. -/
theorem c2_amended_extractor_error_marked_success_witness :
    AttachmentService.processFileAsyncTrace FileType.pdf oPdfBoom dbAllOk =
      ([ExtractionStatus.pending, ExtractionStatus.processing,
        ExtractionStatus.success],
       some { extractedText := "", metadata := .errorMeta "PDF parse failure",
              thumbnailBuffer := false }) :=
  c2_amended_extractor_error_marked_success FileType.pdf "PDF parse failure"
    oPdfBoom dbAllOk rfl rfl (Or.inl ⟨rfl, rfl⟩)

/-- C1 as the code behaves (failing-input evaluation): on six user messages
each carrying one image, the image-limiting step keeps the image parts of the
FIVE most recent image-bearing user messages (`MAX_IMAGES = 5` is used as the
message-window counter) and rewrites only the oldest one to the text
placeholder, while the claim — and the comment above the code — say only the
three most recent keep images.  Original order is preserved. -/
theorem c1_window_keeps_five_not_three :
    AIService.limitImages sixImageMsgs =
      [{ role := Role.user, parts := [Part.text "[Previous Image Omitted]"] },
       imgUserMsg "image-2", imgUserMsg "image-3", imgUserMsg "image-4",
       imgUserMsg "image-5", imgUserMsg "image-6"] ∧
    ((AIService.limitImages sixImageMsgs).filter
        (fun m => m.parts.any Part.isImage)).length = 5 := by
  exact ⟨by decide, by decide⟩

/-- C10 as the code behaves (failing-input evaluation): with an image part
present, `streamResponseWithMode` forces the effective mode to `vision`, but
`MODE_CONFIG` has no `vision` entry, so the call throws (wrapped as an
InternalServerErrorException) before any mode is recorded; without images the
returned effective mode equals the mode passed in. -/
theorem c10_vision_mode_config_missing_throws :
    AIService.streamResponseWithMode (fun _ => []) msgsWithImage Mode.fast
        none =
      .error "AI streaming with mode error: Cannot read properties of undefined (reading model)" ∧
    (AIService.streamResponseWithMode (fun _ => [])
        [{ role := Role.user, parts := [Part.text "hi"] }] Mode.fast
        none).toOption.map AIService.StreamOutcome.effectiveMode =
      some Mode.fast := by
  exact ⟨rfl, rfl⟩

theorem restoreUserWalk_length (origs : List UIMsg) (mm : List MMsg) :
    (AIService.restoreUserWalk origs mm).length = mm.length := by
  induction mm generalizing origs with
  | nil => rfl
  | cons m rest ih =>
    unfold AIService.restoreUserWalk
    by_cases hr : m.role = Role.user
    · cases origs with
      | nil => simp [hr, ih]
      | cons o os => simp [hr, ih]
    · simp [hr, ih]

theorem restoreUserWalk_get?_nonuser (origs : List UIMsg) (mm : List MMsg)
    (j : Nat) (m : MMsg) (hj : mm[j]? = some m)
    (hm : m.role ≠ Role.user) :
    (AIService.restoreUserWalk origs mm)[j]? = some m := by
  induction mm generalizing origs j with
  | nil => simp at hj
  | cons hd rest ih =>
    cases j with
    | zero =>
      simp only [List.getElem?_cons_zero, Option.some.injEq] at hj
      subst hj
      unfold AIService.restoreUserWalk
      simp [hm]
    | succ j2 =>
      simp only [List.getElem?_cons_succ] at hj
      unfold AIService.restoreUserWalk
      by_cases hr : hd.role = Role.user
      · cases origs with
        | nil => simpa [hr] using ih [] j2 hj
        | cons o os => simpa [hr] using ih os j2 hj
      · simpa [hr] using ih origs j2 hj

theorem restoreUserWalk_filter_users (origs : List UIMsg) (mm : List MMsg) :
    (AIService.restoreUserWalk origs mm).filter
        (fun x => x.role = Role.user) =
      zipRestore origs (mm.filter (fun x => x.role = Role.user)) := by
  induction mm generalizing origs with
  | nil => cases origs <;> rfl
  | cons m rest ih =>
    unfold AIService.restoreUserWalk
    by_cases hu : m.role = Role.user
    · cases origs with
      | nil =>
        unfold zipRestore
        simp only [hu, ne_eq, not_true_eq_false, if_false, List.filter_cons,
          decide_True, if_true]
        simpa [hu, List.filter_cons] using ih []
      | cons o os =>
        by_cases hi : o.parts.any Part.isImage
        · simp [hu, hi, List.filter_cons, ih os, zipRestore]
        · simp [hu, hi, List.filter_cons, ih os, zipRestore]
    · simp [hu, List.filter_cons, ih origs]

theorem zipRestore_get? (origs : List UIMsg) (ms : List MMsg) (k : Nat)
    (o : UIMsg) (m : MMsg) (ho : origs[k]? = some o) (hm : ms[k]? = some m)
    (hi : o.parts.any Part.isImage = true) :
    (zipRestore origs ms)[k]? =
      some { m with content := AIService.reconstructContent o.parts } := by
  induction k generalizing origs ms with
  | zero =>
    cases origs with
    | nil => simp at ho
    | cons o2 os =>
      cases ms with
      | nil => simp at hm
      | cons m2 rest =>
        simp only [List.getElem?_cons_zero, Option.some.injEq] at ho hm
        subst ho
        subst hm
        unfold zipRestore
        simp [hi]
  | succ k2 ih =>
    cases origs with
    | nil => simp at ho
    | cons o2 os =>
      cases ms with
      | nil => simp at hm
      | cons m2 rest =>
        simp only [List.getElem?_cons_succ] at ho hm
        unfold zipRestore
        simpa using ih os rest ho hm

theorem reconstructContent_mem_image (ps : List Part) (img : String)
    (mt : Option String) (h : Part.image img mt ∈ ps) :
    Part.image img none ∈ AIService.reconstructContent ps := by
  unfold AIService.reconstructContent
  exact List.mem_map.mpr ⟨Part.image img mt, h, rfl⟩

theorem reconstructContent_mem_text (ps : List Part) (t : String)
    (h : Part.text t ∈ ps) :
    Part.text t ∈ AIService.reconstructContent ps := by
  unfold AIService.reconstructContent
  exact List.mem_map.mpr ⟨Part.text t, h, rfl⟩

/-- C3: the post-conversion restoration step preserves list length, passes
every non-user entry of the converter output through unchanged at its
position, and — walking only the user messages, position-by-position — gives
the k-th user entry of the output the reconstructed content of the k-th
pre-conversion user message whenever that original carried an image part.  The
reconstructed content contains every image datum and every text part of the
original. -/
theorem c3_restoration_preserves_images_and_text (formatted : List UIMsg)
    (mm : List MMsg) :
    (AIService.restoreImages formatted mm).length = mm.length ∧
    (∀ (j : Nat) (m : MMsg), mm[j]? = some m → m.role ≠ Role.user →
      (AIService.restoreImages formatted mm)[j]? = some m) ∧
    (∀ (k : Nat) (o : UIMsg) (m : MMsg),
      (formatted.filter (fun x => x.role = Role.user))[k]? = some o →
      (mm.filter (fun x => x.role = Role.user))[k]? = some m →
      o.parts.any Part.isImage = true →
      ((AIService.restoreImages formatted mm).filter
          (fun x => x.role = Role.user))[k]? =
        some { m with content := AIService.reconstructContent o.parts }) ∧
    (∀ (ps : List Part) (img : String) (mt : Option String),
      Part.image img mt ∈ ps →
      Part.image img none ∈ AIService.reconstructContent ps) ∧
    (∀ (ps : List Part) (t : String),
      Part.text t ∈ ps → Part.text t ∈ AIService.reconstructContent ps) := by
  refine ⟨restoreUserWalk_length _ mm, ?_, ?_, ?_, ?_⟩
  · intro j m hj hm
    exact restoreUserWalk_get?_nonuser _ mm j m hj hm
  · intro k o m ho hm hi
    unfold AIService.restoreImages
    rw [restoreUserWalk_filter_users]
    exact zipRestore_get? _ _ k o m ho hm hi
  · intro ps img mt h
    exact reconstructContent_mem_image ps img mt h
  · intro ps t h
    exact reconstructContent_mem_text ps t h

/-- Witness for C3: on a concrete converter output that stripped the image
and inserted an assistant entry, the first user message of the restored list
carries the original image datum and the original caption text. -/
theorem c3_restoration_preserves_images_and_text_witness :
    ((AIService.restoreImages fmtExample mmExample).filter
        (fun x => x.role = Role.user))[0]? =
      some { role := Role.user,
             content := AIService.reconstructContent
               [Part.image "DATA" (some "image/png"), Part.text "caption"] } :=
  (c3_restoration_preserves_images_and_text fmtExample mmExample).2.2.1 0
    { role := Role.user,
      parts := [Part.image "DATA" (some "image/png"), Part.text "caption"] }
    { role := Role.user, content := [Part.text "caption"] }
    (by decide) (by decide) (by decide)

theorem dispatchStream_store (streamed : Except String AIService.StreamOutcome)
    (requested : Mode) (store1 : Store)
    (cache1 : ClassificationCacheService.Cache) :
    (ChatService.dispatchStream streamed requested store1 cache1).2.1 =
      store1 := by
  cases streamed with
  | error msg => rfl
  | ok outcome =>
    obtain ⟨cfg, mu, em⟩ := outcome
    cases em <;> rfl

/-- C4 counterexample: for a caller who does not own the conversation, the
error `handleStreamingResponse` surfaces is the catch-all
InternalServerErrorException (status 500) WRAPPING the ForbiddenException —
it is not itself surfaced as a 403-equivalent error, contrary to the
claim. -/
theorem c4_counterexample_ownership_surfaced_as_500 :
    (ChatService.handleStreamingResponse (fun s => s) (fun _ => [])
        (fun _ => none) store0 { entries := [] } "conv1" "bob" [flexHi] none 0
        (.error ()) (.error ())).1 =
      .error (.internal "Chat streaming failed: Access denied"
        (some (.forbidden "Access denied"))) ∧
    HttpError.statusCode (.internal "Chat streaming failed: Access denied"
      (some (.forbidden "Access denied"))) ≠ 403 :=
  ⟨rfl, by decide⟩

/-- C4 as amended: when the caller does not own the target conversation,
`handleStreamingResponse` fails before any streaming is dispatched and
persists nothing — the store and cache are returned unchanged — but the
ownership error is surfaced as a 500-equivalent InternalServerErrorException
whose cause is the ForbiddenException, not as a 403-equivalent error. -/
theorem c4_amended_ownership_fails_prestream_wrapped (hash : String → String)
    (convert : List UIMsg → List MMsg) (readFile : String → Option String)
    (store : Store) (cache : ClassificationCacheService.Cache)
    (conversationId userId : String) (messages : List FlexMsg)
    (modeOverride : Option Mode) (now : Nat)
    (classifierReply intentReply : Except Unit String) (conv : Conversation)
    (hfind : store.conversations.find? (fun c => c.id = conversationId) =
      some conv)
    (hown : conv.userId ≠ userId) :
    ChatService.handleStreamingResponse hash convert readFile store cache
        conversationId userId messages modeOverride now classifierReply
        intentReply =
      (.error (.internal "Chat streaming failed: Access denied"
        (some (.forbidden "Access denied"))), store, cache) := by
  have hv : ChatService.verifyOwnership store conversationId userId =
      .error (.forbidden "Access denied") := by
    unfold ChatService.verifyOwnership
    rw [hfind]
    simp [hown]
  unfold ChatService.handleStreamingResponse
  rw [hv]
  rfl

/-- Witness for the amended C4: the concrete non-owner caller bob gets the
wrapped 500 and the store is untouched. -/
theorem c4_amended_ownership_fails_prestream_wrapped_witness :
    ChatService.handleStreamingResponse (fun s => s) (fun _ => [])
        (fun _ => none) store0 { entries := [] } "conv1" "bob" [flexHi] none 0
        (.error ()) (.error ()) =
      (.error (.internal "Chat streaming failed: Access denied"
        (some (.forbidden "Access denied"))), store0, { entries := [] }) :=
  c4_amended_ownership_fails_prestream_wrapped (fun s => s) (fun _ => [])
    (fun _ => none) store0 { entries := [] } "conv1" "bob" [flexHi] none 0
    (.error ()) (.error ())
    { id := "conv1", userId := "alice", systemPrompt := none,
      operationalMode := none }
    (by decide) (by decide)

/-- C9: when the most recently persisted user message of the conversation has
content equal to the incoming turn's extracted text, the turn is treated as a
duplicate resend and no new Message row is persisted — the store returned by
`handleStreamingResponse` is exactly the store it started from, whatever the
downstream mode resolution and streaming outcomes are. -/
theorem c9_duplicate_resend_not_persisted (hash : String → String)
    (convert : List UIMsg → List MMsg) (readFile : String → Option String)
    (store : Store) (cache : ClassificationCacheService.Cache)
    (conversationId userId : String) (messages : List FlexMsg)
    (modeOverride : Option Mode) (now : Nat)
    (classifierReply intentReply : Except Unit String) (conv : Conversation)
    (inMsg : FlexMsg) (lastDb : DbMessage)
    (hfind : store.conversations.find? (fun c => c.id = conversationId) =
      some conv)
    (hown : conv.userId = userId)
    (hin : messages.getLast? = some inMsg)
    (hlast : (store.messages.filter (fun m =>
      m.conversationId = conversationId ∧ m.role = Role.user)).getLast? =
      some lastDb)
    (heq : lastDb.content =
      MessageUtils.extractTextUI (MessageUtils.normalize inMsg)) :
    (ChatService.handleStreamingResponse hash convert readFile store cache
        conversationId userId messages modeOverride now classifierReply
        intentReply).2.1 = store := by
  have hv : ChatService.verifyOwnership store conversationId userId =
      .ok conv := by
    unfold ChatService.verifyOwnership
    rw [hfind]
    simp [hown]
  have hdup : (lastDb.content ==
      MessageUtils.extractTextUI (MessageUtils.normalize inMsg)) = true := by
    rw [heq]
    exact beq_self_eq_true _
  unfold ChatService.handleStreamingResponse
  rw [hv, hin]
  simp only [hlast, hdup, if_true]
  exact dispatchStream_store _ _ _ _

/-- Witness for C9: resending the already-persisted text hi to the owning
caller alice leaves the store unchanged. -/
theorem c9_duplicate_resend_not_persisted_witness :
    (ChatService.handleStreamingResponse (fun s => s) (fun _ => [])
        (fun _ => none) store0 { entries := [] } "conv1" "alice" [flexHi] none
        0 (.error ()) (.error ())).2.1 = store0 :=
  c9_duplicate_resend_not_persisted (fun s => s) (fun _ => [])
    (fun _ => none) store0 { entries := [] } "conv1" "alice" [flexHi] none 0
    (.error ()) (.error ())
    { id := "conv1", userId := "alice", systemPrompt := none,
      operationalMode := none }
    flexHi
    { conversationId := "conv1", role := Role.user, content := "hi",
      parts := [Part.text "hi"] }
    (by decide) (by decide) (by decide) (by decide) (by decide)

/-- Witness for C6: the concrete throwing-PDF job's status trace is a
subsequence of the success chain, and its non-final entry PENDING is not a
terminal status. -/
theorem c6_status_lifecycle_monotone_witness :
    ((AttachmentService.processFileAsyncTrace FileType.pdf oPdfBoom
        dbAllOk).1.Sublist
      [ExtractionStatus.pending, ExtractionStatus.processing,
       ExtractionStatus.success] ∨
     (AttachmentService.processFileAsyncTrace FileType.pdf oPdfBoom
        dbAllOk).1.Sublist
      [ExtractionStatus.pending, ExtractionStatus.processing,
       ExtractionStatus.failed]) ∧
    (ExtractionStatus.pending ≠ ExtractionStatus.success ∧
     ExtractionStatus.pending ≠ ExtractionStatus.failed) :=
  ⟨(c6_status_lifecycle_monotone FileType.pdf oPdfBoom dbAllOk).1,
   (c6_status_lifecycle_monotone FileType.pdf oPdfBoom dbAllOk).2
     ExtractionStatus.pending (by decide)⟩

end BetterDev
